import Mathlib

/-!
Verification of `VoxelGenerator/VoxelGenerator.py`.

The source converts a triangle mesh (loaded from an STL file) into a boolean
voxel grid.  We embed the numeric core shallowly:

* mesh coordinates are modelled as exact rationals (`ℚ`); the source uses
  IEEE doubles, whose rounding is outside the scope of this model;
* the Euclidean norm used by the occupancy test lives in `ℝ` (`Real.sqrt`);
* the mutable numpy boolean array becomes a `VoxelGrid` structure holding its
  shape and a `Prop`-valued cell function, and the triangle loop becomes a
  left fold of monotone OR-writes;
* the two run-time failures the source can actually hit (numpy's `ValueError`
  from the empty `min` reduction, and numpy's `ValueError` from `np.zeros`
  with a negative dimension) become an `Except` error type.

One float-specific behaviour needs explicit modelling: when a component of
`voxel_size` is zero (flat mesh axis) the source's division yields NaN
(0.0/0.0), `np.floor`/`np.ceil` keep the NaN, and the `astype(int)` cast of a
NaN produces INT64_MIN; when `resolution = 0` the division yields +inf and the
quotient `(tri_min - min_coords)/inf` is 0.  In both cases the enumerated
`range(...)` is empty.  The embedding's `npFloorIdx`/`npCeilIdx` return
`int64Min` when the divisor is zero, which reproduces the same (empty)
enumerated ranges for every state the source can reach.
-/

/-- A point in 3-space, one rational per axis. -/
abbrev Q3 : Type := ℚ × ℚ × ℚ

/-- One triangle of the mesh: three vertices, mirroring one row of
`stl_mesh.vectors` (shape 3×3). -/
structure Triangle where
  v0 : Q3
  v1 : Q3
  v2 : Q3
deriving DecidableEq

/-- The vertex list of a triangle, in source order. -/
def Triangle.verts (t : Triangle) : List Q3 := [t.v0, t.v1, t.v2]

/-- `stl_mesh.vectors.reshape(-1, 3)`: all vertices of all triangles, in
order. -/
def allPoints : List Triangle → List Q3
  | [] => []
  | t :: rest => t.verts ++ allPoints rest

/-- Numpy `min` reduction of a list of rationals (seeded at the first
element; the source raises on an empty array, handled by the caller). -/
def listMin : List ℚ → ℚ
  | [] => 0
  | a :: l => l.foldl min a

/-- Numpy `max` reduction of a list of rationals. -/
def listMax : List ℚ → ℚ
  | [] => 0
  | a :: l => l.foldl max a

/-- `points.min(axis=0)`: the component-wise minimum (each column reduced
independently). -/
def coordsMin (ps : List Q3) : Q3 :=
  (listMin (ps.map fun p => p.1),
   listMin (ps.map fun p => p.2.1),
   listMin (ps.map fun p => p.2.2))

/-- `points.max(axis=0)`: the component-wise maximum. -/
def coordsMax (ps : List Q3) : Q3 :=
  (listMax (ps.map fun p => p.1),
   listMax (ps.map fun p => p.2.1),
   listMax (ps.map fun p => p.2.2))

/-- Component-wise subtraction, as numpy broadcasts `a - b` on 3-vectors. -/
def psub (a b : Q3) : Q3 := (a.1 - b.1, a.2.1 - b.2.1, a.2.2 - b.2.2)

/-- `min_coords = all_points.min(axis=0)`. -/
def meshMin (ts : List Triangle) : Q3 := coordsMin (allPoints ts)

/-- `max_coords = all_points.max(axis=0)`. -/
def meshMax (ts : List Triangle) : Q3 := coordsMax (allPoints ts)

/-- `dims = max_coords - min_coords`. -/
def meshDims (ts : List Triangle) : Q3 := psub (meshMax ts) (meshMin ts)

/-- `voxel_size = dims / resolution` (component-wise). -/
def voxelSizeOf (ts : List Triangle) (resolution : ℤ) : Q3 :=
  ((meshDims ts).1 / (resolution : ℚ),
   (meshDims ts).2.1 / (resolution : ℚ),
   (meshDims ts).2.2 / (resolution : ℚ))

/-- The per-conversion quantities the triangle loop reads: `min_coords`,
`voxel_size`, `resolution`. -/
structure RasterParams where
  minCoords : Q3
  voxelSize : Q3
  resolution : ℤ
deriving DecidableEq

/-- The parameters the conversion call with mesh `ts` and the given
resolution feeds to its triangle loop. -/
def mkParams (ts : List Triangle) (resolution : ℤ) : RasterParams :=
  ⟨meshMin ts, voxelSizeOf ts resolution, resolution⟩

/-- INT64_MIN, the value numpy's `astype(int)` cast produces for NaN. -/
def int64Min : ℤ := -(2 ^ 63)

/-- `np.floor(num/den).astype(int)` for one axis.  A zero divisor models the
source's non-finite float path (NaN from 0/0), whose int cast is INT64_MIN. -/
def npFloorIdx (num den : ℚ) : ℤ :=
  if den = 0 then int64Min else ⌊num / den⌋

/-- `np.ceil(num/den).astype(int)` for one axis, with the same zero-divisor
convention as `npFloorIdx`. -/
def npCeilIdx (num den : ℚ) : ℤ :=
  if den = 0 then int64Min else ⌈num / den⌉

/-- `tri_min = triangle.min(axis=0)`. -/
def triMin (t : Triangle) : Q3 := coordsMin t.verts

/-- `tri_max = triangle.max(axis=0)`. -/
def triMax (t : Triangle) : Q3 := coordsMax t.verts

/-- `voxel_min = np.floor((tri_min - min_coords) / voxel_size).astype(int)`. -/
def voxelMinRaw (P : RasterParams) (t : Triangle) : ℤ × ℤ × ℤ :=
  (npFloorIdx ((triMin t).1 - P.minCoords.1) P.voxelSize.1,
   npFloorIdx ((triMin t).2.1 - P.minCoords.2.1) P.voxelSize.2.1,
   npFloorIdx ((triMin t).2.2 - P.minCoords.2.2) P.voxelSize.2.2)

/-- `voxel_max = np.ceil((tri_max - min_coords) / voxel_size).astype(int)`. -/
def voxelMaxRaw (P : RasterParams) (t : Triangle) : ℤ × ℤ × ℤ :=
  (npCeilIdx ((triMax t).1 - P.minCoords.1) P.voxelSize.1,
   npCeilIdx ((triMax t).2.1 - P.minCoords.2.1) P.voxelSize.2.1,
   npCeilIdx ((triMax t).2.2 - P.minCoords.2.2) P.voxelSize.2.2)

/-- `voxel_min = np.maximum(voxel_min, 0)`: the lower index, clamped below. -/
def voxelMinC (P : RasterParams) (t : Triangle) : ℤ × ℤ × ℤ :=
  (max (voxelMinRaw P t).1 0,
   max (voxelMinRaw P t).2.1 0,
   max (voxelMinRaw P t).2.2 0)

/-- `voxel_max = np.minimum(voxel_max, resolution - 1)`: the upper index,
clamped above. -/
def voxelMaxC (P : RasterParams) (t : Triangle) : ℤ × ℤ × ℤ :=
  (min (voxelMaxRaw P t).1 (P.resolution - 1),
   min (voxelMaxRaw P t).2.1 (P.resolution - 1),
   min (voxelMaxRaw P t).2.2 (P.resolution - 1))

/-- Membership of `(i, j, k)` in the three nested inclusive `range` loops of
the rasterizer. -/
def inRange (P : RasterParams) (t : Triangle) (i j k : ℤ) : Prop :=
  (voxelMinC P t).1 ≤ i ∧ i ≤ (voxelMaxC P t).1 ∧
  (voxelMinC P t).2.1 ≤ j ∧ j ≤ (voxelMaxC P t).2.1 ∧
  (voxelMinC P t).2.2 ≤ k ∧ k ≤ (voxelMaxC P t).2.2

instance (P : RasterParams) (t : Triangle) (i j k : ℤ) :
    Decidable (inRange P t i j k) := by
  unfold inRange; infer_instance

/-- `voxel_center = min_coords + np.array([i, j, k]) * voxel_size +
voxel_size / 2`. -/
def voxelCenter (P : RasterParams) (i j k : ℤ) : Q3 :=
  (P.minCoords.1 + (i : ℚ) * P.voxelSize.1 + P.voxelSize.1 / 2,
   P.minCoords.2.1 + (j : ℚ) * P.voxelSize.2.1 + P.voxelSize.2.1 / 2,
   P.minCoords.2.2 + (k : ℚ) * P.voxelSize.2.2 + P.voxelSize.2.2 / 2)

/-- `np.linalg.norm` of one 3-vector: the Euclidean norm. -/
noncomputable def pyNorm3 (v : Q3) : ℝ :=
  Real.sqrt ((v.1 : ℝ) ^ 2 + (v.2.1 : ℝ) ^ 2 + (v.2.2 : ℝ) ^ 2)

/-- `point_near_triangle(point, triangle, threshold)`: the minimum of the
three vertex distances (`np.linalg.norm(triangle - point, axis=1)`) compared
strictly against `threshold * 2`. -/
def point_near_triangle (point : Q3) (t : Triangle) (threshold : ℚ) : Prop :=
  min (min (pyNorm3 (psub t.v0 point)) (pyNorm3 (psub t.v1 point)))
      (pyNorm3 (psub t.v2 point)) < (threshold : ℝ) * 2

/-- `voxel_size.max()`: the maximum component of a 3-vector. -/
def q3max (v : Q3) : ℚ := max v.1 (max v.2.1 v.2.2)

/-- The condition under which the loop body sets `voxel_grid[i, j, k] = True`
for triangle `t`: the cell is enumerated and its center passes
`point_near_triangle` with threshold `voxel_size.max()`. -/
def marksCell (P : RasterParams) (t : Triangle) (i j k : ℤ) : Prop :=
  inRange P t i j k ∧
    point_near_triangle (voxelCenter P i j k) t (q3max P.voxelSize)

/-- The numpy boolean array: its allocation shape together with the cell
contents. -/
structure VoxelGrid where
  shape : ℤ × ℤ × ℤ
  cell : ℤ → ℤ → ℤ → Prop

/-- `np.zeros((resolution, resolution, resolution), dtype=bool)`. -/
def npZerosBool (resolution : ℤ) : VoxelGrid :=
  ⟨(resolution, resolution, resolution), fun _ _ _ => False⟩

/-- The effect on the grid of the three nested loops for one triangle:
each enumerated cell whose center passes the test is set `True`, every other
cell keeps its value. -/
def rasterizeTriangle (P : RasterParams) (g : VoxelGrid) (t : Triangle) :
    VoxelGrid :=
  ⟨g.shape, fun i j k => g.cell i j k ∨ marksCell P t i j k⟩

/-- The outer `for triangle in stl_mesh.vectors` loop. -/
def rasterize (P : RasterParams) (ts : List Triangle) (g : VoxelGrid) :
    VoxelGrid :=
  ts.foldl (rasterizeTriangle P) g

/-- The run-time failures the source can hit inside `stl_to_voxel`:
numpy's `ValueError` from a `min` reduction over an empty array (zero
triangles), and numpy's `ValueError` from `np.zeros` with a negative
dimension (negative resolution). -/
inductive PyErr where
  | emptyMinReduction : PyErr
  | negativeDimsZeros : PyErr
deriving DecidableEq

/-- The value `stl_to_voxel` returns: `(voxel_grid, (min_coords, max_coords))`. -/
structure VoxelResult where
  grid : VoxelGrid
  minCoords : Q3
  maxCoords : Q3

/-- `stl_to_voxel(filename, resolution)`, with the mesh already loaded as a
triangle list.  The bounds reduction runs first (raising on an empty mesh),
then the allocation (raising on a negative resolution), then the triangle
loop; no other failure or validation exists in the source. -/
def stl_to_voxel (ts : List Triangle) (resolution : ℤ) :
    Except PyErr VoxelResult :=
  match ts with
  | [] => Except.error PyErr.emptyMinReduction
  | _ :: _ =>
    if resolution < 0 then Except.error PyErr.negativeDimsZeros
    else
      Except.ok
        ⟨rasterize (mkParams ts resolution) ts (npZerosBool resolution),
         meshMin ts, meshMax ts⟩

/-- Whether a conversion returned normally (`Except.ok`). -/
def conversionOk (e : Except PyErr VoxelResult) : Bool :=
  match e with
  | Except.ok _ => true
  | Except.error _ => false

/-- Product of the three allocation dimensions of a grid. -/
def VoxelGrid.cellCount (g : VoxelGrid) : ℤ :=
  g.shape.1 * g.shape.2.1 * g.shape.2.2

/-- The Euclidean distance between two points, written as the spec describes
it (for the refinement statement of the occupancy predicate). -/
noncomputable def euclidDist (a b : Q3) : ℝ :=
  Real.sqrt (((a.1 : ℝ) - (b.1 : ℝ)) ^ 2 + ((a.2.1 : ℝ) - (b.2.1 : ℝ)) ^ 2 +
    ((a.2.2 : ℝ) - (b.2.2 : ℝ)) ^ 2)

/-- Spec-side predicate: `m` is a component-wise lower bound of `ps`. -/
def isLowerBound (m : Q3) (ps : List Q3) : Prop :=
  ∀ v ∈ ps, m.1 ≤ v.1 ∧ m.2.1 ≤ v.2.1 ∧ m.2.2 ≤ v.2.2

/-- Spec-side predicate: `m` is a component-wise upper bound of `ps`. -/
def isUpperBound (m : Q3) (ps : List Q3) : Prop :=
  ∀ v ∈ ps, v.1 ≤ m.1 ∧ v.2.1 ≤ m.2.1 ∧ v.2.2 ≤ m.2.2

/-- Spec-side predicate: each coordinate of `m` is attained by some point of
`ps` (so `m` really is the component-wise extremum, not just a bound). -/
def attainsEachCoord (m : Q3) (ps : List Q3) : Prop :=
  (∃ v ∈ ps, v.1 = m.1) ∧ (∃ v ∈ ps, v.2.1 = m.2.1) ∧ (∃ v ∈ ps, v.2.2 = m.2.2)

/-- The demonstration mesh used for concrete witnesses: two triangles inside
the unit cube whose joint bounds are exactly `(0,0,0)`–`(1,1,1)`. -/
def triA : Triangle := ⟨(0, 0, 0), (1, 0, 0), (0, 1, 1)⟩

/-- A triangle lying flat against the `x = 1` face of the demonstration
mesh's bounding box. -/
def triB : Triangle := ⟨(1, 0, 0), (1, 1, 0), (1, 0, 1)⟩

/-- The two-triangle demonstration mesh. -/
def demoMesh : List Triangle := [triA, triB]

/-- The demonstration mesh in the opposite triangle order. -/
def demoMeshSwapped : List Triangle := [triB, triA]

/-- A single flat triangle: zero extent on the z axis. -/
def flatTri : Triangle := ⟨(0, 0, 0), (1, 0, 0), (0, 1, 0)⟩

/-! ## Lemmas about the numpy reductions -/

theorem foldl_min_le_seed (l : List ℚ) (a : ℚ) : l.foldl min a ≤ a := by
  induction l generalizing a with
  | nil => exact le_refl a
  | cons b l ih => exact le_trans (ih (min a b)) (min_le_left a b)

theorem foldl_min_le_of_mem (l : List ℚ) (a : ℚ) :
    ∀ x ∈ l, l.foldl min a ≤ x := by
  induction l generalizing a with
  | nil => intro x hx; cases hx
  | cons b l ih =>
    intro x hx
    rcases List.mem_cons.mp hx with h | h
    · subst h
      exact le_trans (foldl_min_le_seed l (min a x)) (min_le_right a x)
    · exact ih (min a b) x h

theorem foldl_min_mem (l : List ℚ) (a : ℚ) : l.foldl min a ∈ a :: l := by
  induction l generalizing a with
  | nil => exact List.mem_singleton.mpr rfl
  | cons b l ih =>
    have h := ih (min a b)
    rcases List.mem_cons.mp h with h | h
    · rcases min_choice a b with hab | hab
      · exact List.mem_cons.mpr (Or.inl (h.trans hab))
      · exact List.mem_cons.mpr (Or.inr (List.mem_cons.mpr (Or.inl (h.trans hab))))
    · exact List.mem_cons.mpr (Or.inr (List.mem_cons.mpr (Or.inr h)))

theorem listMin_le_of_mem (l : List ℚ) : ∀ x ∈ l, listMin l ≤ x := by
  cases l with
  | nil => intro x hx; cases hx
  | cons a l =>
    intro x hx
    rcases List.mem_cons.mp hx with h | h
    · subst h; exact foldl_min_le_seed l x
    · exact foldl_min_le_of_mem l a x h

theorem listMin_mem (l : List ℚ) (h : l ≠ []) : listMin l ∈ l := by
  cases l with
  | nil => exact absurd rfl h
  | cons a l => exact foldl_min_mem l a

theorem listMin_perm (l l' : List ℚ) (h : l.Perm l') : listMin l = listMin l' := by
  cases l with
  | nil =>
    have : l' = [] := h.symm.eq_nil
    rw [this]
  | cons a t =>
    have hne : a :: t ≠ [] := List.cons_ne_nil a t
    have hne' : l' ≠ [] := by
      intro hl'
      exact hne (hl' ▸ h).eq_nil
    apply le_antisymm
    · exact listMin_le_of_mem (a :: t) _ (h.mem_iff.mpr (listMin_mem l' hne'))
    · exact listMin_le_of_mem l' _ (h.mem_iff.mp (listMin_mem (a :: t) hne))

theorem foldl_max_seed_le (l : List ℚ) (a : ℚ) : a ≤ l.foldl max a := by
  induction l generalizing a with
  | nil => exact le_refl a
  | cons b l ih => exact le_trans (le_max_left a b) (ih (max a b))

theorem foldl_max_ge_of_mem (l : List ℚ) (a : ℚ) :
    ∀ x ∈ l, x ≤ l.foldl max a := by
  induction l generalizing a with
  | nil => intro x hx; cases hx
  | cons b l ih =>
    intro x hx
    rcases List.mem_cons.mp hx with h | h
    · subst h
      exact le_trans (le_max_right a x) (foldl_max_seed_le l (max a x))
    · exact ih (max a b) x h

theorem foldl_max_mem (l : List ℚ) (a : ℚ) : l.foldl max a ∈ a :: l := by
  induction l generalizing a with
  | nil => exact List.mem_singleton.mpr rfl
  | cons b l ih =>
    have h := ih (max a b)
    rcases List.mem_cons.mp h with h | h
    · rcases max_choice a b with hab | hab
      · exact List.mem_cons.mpr (Or.inl (h.trans hab))
      · exact List.mem_cons.mpr (Or.inr (List.mem_cons.mpr (Or.inl (h.trans hab))))
    · exact List.mem_cons.mpr (Or.inr (List.mem_cons.mpr (Or.inr h)))

theorem listMax_ge_of_mem (l : List ℚ) : ∀ x ∈ l, x ≤ listMax l := by
  cases l with
  | nil => intro x hx; cases hx
  | cons a l =>
    intro x hx
    rcases List.mem_cons.mp hx with h | h
    · subst h; exact foldl_max_seed_le l x
    · exact foldl_max_ge_of_mem l a x h

theorem listMax_mem (l : List ℚ) (h : l ≠ []) : listMax l ∈ l := by
  cases l with
  | nil => exact absurd rfl h
  | cons a l => exact foldl_max_mem l a

theorem listMax_perm (l l' : List ℚ) (h : l.Perm l') : listMax l = listMax l' := by
  cases l with
  | nil =>
    have : l' = [] := h.symm.eq_nil
    rw [this]
  | cons a t =>
    have hne : a :: t ≠ [] := List.cons_ne_nil a t
    have hne' : l' ≠ [] := by
      intro hl'
      exact hne (hl' ▸ h).eq_nil
    apply le_antisymm
    · exact listMax_ge_of_mem l' _ (h.mem_iff.mp (listMax_mem (a :: t) hne))
    · exact listMax_ge_of_mem (a :: t) _ (h.mem_iff.mpr (listMax_mem l' hne'))

/-! ## Lemmas about `allPoints` and the mesh bounds -/

theorem allPoints_cons (t : Triangle) (ts : List Triangle) :
    allPoints (t :: ts) = t.verts ++ allPoints ts := rfl

theorem allPoints_perm (ts ts' : List Triangle) (h : ts.Perm ts') :
    (allPoints ts).Perm (allPoints ts') := by
  induction h with
  | nil => exact List.Perm.refl _
  | cons x _ ih =>
    rw [allPoints_cons, allPoints_cons]
    exact ih.append_left x.verts
  | swap x y l =>
    rw [allPoints_cons, allPoints_cons, allPoints_cons, allPoints_cons,
      ← List.append_assoc, ← List.append_assoc]
    exact (List.perm_append_comm).append_right (allPoints l)
  | trans _ _ ih₁ ih₂ => exact ih₁.trans ih₂

theorem allPoints_ne_nil (ts : List Triangle) (h : ts ≠ []) :
    allPoints ts ≠ [] := by
  cases ts with
  | nil => exact absurd rfl h
  | cons t ts => simp [allPoints_cons, Triangle.verts]

theorem coordsMin_perm (ps ps' : List Q3) (h : ps.Perm ps') :
    coordsMin ps = coordsMin ps' := by
  unfold coordsMin
  rw [listMin_perm _ _ (h.map _), listMin_perm _ _ (h.map _),
    listMin_perm _ _ (h.map _)]

theorem coordsMax_perm (ps ps' : List Q3) (h : ps.Perm ps') :
    coordsMax ps = coordsMax ps' := by
  unfold coordsMax
  rw [listMax_perm _ _ (h.map _), listMax_perm _ _ (h.map _),
    listMax_perm _ _ (h.map _)]

theorem meshMin_perm (ts ts' : List Triangle) (h : ts.Perm ts') :
    meshMin ts = meshMin ts' :=
  coordsMin_perm _ _ (allPoints_perm ts ts' h)

theorem meshMax_perm (ts ts' : List Triangle) (h : ts.Perm ts') :
    meshMax ts = meshMax ts' :=
  coordsMax_perm _ _ (allPoints_perm ts ts' h)

theorem mkParams_perm (ts ts' : List Triangle) (res : ℤ) (h : ts.Perm ts') :
    mkParams ts res = mkParams ts' res := by
  unfold mkParams voxelSizeOf meshDims
  rw [meshMin_perm ts ts' h, meshMax_perm ts ts' h]

/-! ## Lemmas about the grid and the rasterization fold -/

theorem VoxelGrid.ext_iff_cells (g h : VoxelGrid) (hs : g.shape = h.shape)
    (hc : ∀ i j k, g.cell i j k ↔ h.cell i j k) : g = h := by
  cases g with
  | mk gs gc =>
    cases h with
    | mk hs' hc' =>
      simp only at hs
      subst hs
      have : gc = hc' := by
        funext i j k
        exact propext (hc i j k)
      rw [this]

theorem rasterize_shape (P : RasterParams) (ts : List Triangle) (g : VoxelGrid) :
    (rasterize P ts g).shape = g.shape := by
  induction ts generalizing g with
  | nil => rfl
  | cons t ts ih => exact (ih (rasterizeTriangle P g t)).trans rfl

theorem rasterize_cell (P : RasterParams) (ts : List Triangle) (g : VoxelGrid)
    (i j k : ℤ) :
    (rasterize P ts g).cell i j k ↔
      g.cell i j k ∨ ∃ t ∈ ts, marksCell P t i j k := by
  induction ts generalizing g with
  | nil => simp [rasterize]
  | cons t ts ih =>
    show (rasterize P ts (rasterizeTriangle P g t)).cell i j k ↔ _
    rw [ih]
    show (g.cell i j k ∨ marksCell P t i j k) ∨ _ ↔ _
    simp only [List.exists_mem_cons_iff]
    tauto

theorem stl_to_voxel_cons (t : Triangle) (ts : List Triangle) (res : ℤ) :
    stl_to_voxel (t :: ts) res =
      if res < 0 then Except.error PyErr.negativeDimsZeros
      else
        Except.ok
          ⟨rasterize (mkParams (t :: ts) res) (t :: ts) (npZerosBool res),
           meshMin (t :: ts), meshMax (t :: ts)⟩ := rfl

theorem stl_to_voxel_ok (ts : List Triangle) (res : ℤ) (h : ts ≠ [])
    (hres : ¬ res < 0) :
    stl_to_voxel ts res =
      Except.ok
        ⟨rasterize (mkParams ts res) ts (npZerosBool res),
         meshMin ts, meshMax ts⟩ := by
  cases ts with
  | nil => exact absurd rfl h
  | cons t ts => rw [stl_to_voxel_cons, if_neg hres]

/-! ## Claim theorems -/

theorem pyNorm3_psub_comm (a b : Q3) : pyNorm3 (psub a b) = euclidDist b a := by
  unfold pyNorm3 euclidDist psub
  congr 1
  push_cast
  ring

/-- Claim C1: for every point `P`, triangle, and threshold `T` (in the
conversion the rasterizer instantiates `T` with `voxel_size.max()`, the
maximum component of the voxel size), the occupancy predicate holds iff the
minimum Euclidean distance from `P` to one of the triangle's three vertices
is strictly less than `2T`. -/
theorem point_near_triangle_spec (p : Q3) (t : Triangle) (T : ℚ) :
    point_near_triangle p t T ↔
      ∃ v ∈ [t.v0, t.v1, t.v2], euclidDist p v < 2 * (T : ℝ) := by
  unfold point_near_triangle
  rw [pyNorm3_psub_comm, pyNorm3_psub_comm, pyNorm3_psub_comm, min_lt_iff,
    min_lt_iff, mul_comm ((T : ℚ) : ℝ) 2]
  simp only [List.mem_cons, List.not_mem_nil, or_false]
  constructor
  · rintro ((h | h) | h)
    · exact ⟨t.v0, Or.inl rfl, h⟩
    · exact ⟨t.v1, Or.inr (Or.inl rfl), h⟩
    · exact ⟨t.v2, Or.inr (Or.inr rfl), h⟩
  · rintro ⟨v, (rfl | rfl | rfl), hv⟩
    · exact Or.inl (Or.inl hv)
    · exact Or.inl (Or.inr hv)
    · exact Or.inr hv

/-- Claim C5: converting a mesh with zero triangles fails (with the error
the empty `min` reduction raises) instead of returning bounds or a grid. -/
theorem empty_mesh_fails (res : ℤ) :
    stl_to_voxel [] res = Except.error PyErr.emptyMinReduction := rfl

/-- Claim C6: for every non-empty mesh the computed bounds are the
component-wise minimum and maximum over all vertices of all triangles: they
bound every vertex, each coordinate is attained, and `min ≤ max` on every
axis. -/
theorem bounds_minmax_correct (ts : List Triangle) (h : ts ≠ []) :
    isLowerBound (meshMin ts) (allPoints ts) ∧
    attainsEachCoord (meshMin ts) (allPoints ts) ∧
    isUpperBound (meshMax ts) (allPoints ts) ∧
    attainsEachCoord (meshMax ts) (allPoints ts) ∧
    ((meshMin ts).1 ≤ (meshMax ts).1 ∧ (meshMin ts).2.1 ≤ (meshMax ts).2.1 ∧
      (meshMin ts).2.2 ≤ (meshMax ts).2.2) := by
  have hne := allPoints_ne_nil ts h
  obtain ⟨p, hp⟩ : ∃ p, p ∈ allPoints ts := by
    cases hx : allPoints ts with
    | nil => exact absurd hx hne
    | cons a l => exact ⟨a, hx ▸ List.mem_cons_self a l⟩
  refine ⟨?_, ?_, ?_, ?_, ?_⟩
  · intro v hv
    exact ⟨listMin_le_of_mem _ _ (List.mem_map_of_mem _ hv),
           listMin_le_of_mem _ _ (List.mem_map_of_mem _ hv),
           listMin_le_of_mem _ _ (List.mem_map_of_mem _ hv)⟩
  · refine ⟨?_, ?_, ?_⟩ <;>
    · obtain ⟨v, hv, hfv⟩ := List.mem_map.mp
        (listMin_mem _ (by simpa using hne))
      exact ⟨v, hv, hfv⟩
  · intro v hv
    exact ⟨listMax_ge_of_mem _ _ (List.mem_map_of_mem _ hv),
           listMax_ge_of_mem _ _ (List.mem_map_of_mem _ hv),
           listMax_ge_of_mem _ _ (List.mem_map_of_mem _ hv)⟩
  · refine ⟨?_, ?_, ?_⟩ <;>
    · obtain ⟨v, hv, hfv⟩ := List.mem_map.mp
        (listMax_mem _ (by simpa using hne))
      exact ⟨v, hv, hfv⟩
  · exact ⟨le_trans (listMin_le_of_mem _ _ (List.mem_map_of_mem _ hp))
            (listMax_ge_of_mem _ _ (List.mem_map_of_mem _ hp)),
          le_trans (listMin_le_of_mem _ _ (List.mem_map_of_mem _ hp))
            (listMax_ge_of_mem _ _ (List.mem_map_of_mem _ hp)),
          le_trans (listMin_le_of_mem _ _ (List.mem_map_of_mem _ hp))
            (listMax_ge_of_mem _ _ (List.mem_map_of_mem _ hp))⟩

/-- Witness for C6 at the two-triangle demonstration mesh. -/
theorem bounds_minmax_correct_witness :
    demoMesh ≠ [] ∧
    (isLowerBound (meshMin demoMesh) (allPoints demoMesh) ∧
     attainsEachCoord (meshMin demoMesh) (allPoints demoMesh) ∧
     isUpperBound (meshMax demoMesh) (allPoints demoMesh) ∧
     attainsEachCoord (meshMax demoMesh) (allPoints demoMesh) ∧
     ((meshMin demoMesh).1 ≤ (meshMax demoMesh).1 ∧
       (meshMin demoMesh).2.1 ≤ (meshMax demoMesh).2.1 ∧
       (meshMin demoMesh).2.2 ≤ (meshMax demoMesh).2.2)) :=
  ⟨by simp [demoMesh], bounds_minmax_correct demoMesh (by simp [demoMesh])⟩

/-- Claim C8: grid writes are monotonic (a true cell stays true under any
further rasterization), and starting from the all-false allocation the final
state of a cell is true iff some triangle's clamped index range contains it
and the occupancy predicate accepts its center against that triangle. -/
theorem raster_monotone_and_final (P : RasterParams) (i j k : ℤ) :
    (∀ (g : VoxelGrid) (ts : List Triangle),
        g.cell i j k → (rasterize P ts g).cell i j k) ∧
    (∀ ts : List Triangle,
        (rasterize P ts (npZerosBool P.resolution)).cell i j k ↔
          ∃ t ∈ ts, inRange P t i j k ∧
            point_near_triangle (voxelCenter P i j k) t (q3max P.voxelSize)) := by
  constructor
  · intro g ts hg
    exact (rasterize_cell P ts g i j k).mpr (Or.inl hg)
  · intro ts
    rw [rasterize_cell]
    simp [npZerosBool, marksCell]

/-- Witness for C8: a cell already true stays true through a rasterization
pass over the demonstration mesh. -/
theorem raster_monotone_and_final_witness :
    (rasterize (mkParams demoMesh 1) demoMesh
        ⟨(1, 1, 1), fun _ _ _ => True⟩).cell 0 0 0 :=
  (raster_monotone_and_final (mkParams demoMesh 1) 0 0 0).1
    ⟨(1, 1, 1), fun _ _ _ => True⟩ demoMesh trivial

/-- The result value the conversion of the demonstration mesh at
resolution 1 produces. -/
def demoResult : VoxelResult :=
  ⟨rasterize (mkParams demoMesh 1) demoMesh (npZerosBool 1),
   meshMin demoMesh, meshMax demoMesh⟩

/-- Claim C9: for a valid input (non-empty, non-degenerate bounds,
resolution ≥ 1) the conversion's grid is allocated with shape
resolution×resolution×resolution — resolution³ cells — and the allocation
every rasterization write starts from has every cell false. -/
theorem grid_alloc_shape_init (ts : List Triangle) (res : ℤ) (r : VoxelResult)
    (hne : ts ≠ []) (hres : 1 ≤ res)
    (_hnd : (meshMin ts).1 < (meshMax ts).1 ∧
      (meshMin ts).2.1 < (meshMax ts).2.1 ∧
      (meshMin ts).2.2 < (meshMax ts).2.2)
    (hok : stl_to_voxel ts res = Except.ok r) :
    r.grid.shape = (res, res, res) ∧ r.grid.cellCount = res ^ 3 ∧
    (∀ i j k, ¬ (npZerosBool res).cell i j k) := by
  rw [stl_to_voxel_ok ts res hne (by omega)] at hok
  rw [← Except.ok.inj hok]
  refine ⟨?_, ?_, ?_⟩
  · exact (rasterize_shape _ _ _).trans rfl
  · show VoxelGrid.cellCount _ = _
    unfold VoxelGrid.cellCount
    rw [rasterize_shape]
    show res * res * res = res ^ 3
    ring
  · intro i j k hcell
    exact hcell

/-- Witness for C9 at the demonstration mesh and resolution 1. -/
theorem grid_alloc_shape_init_witness :
    demoMesh ≠ [] ∧ (1 : ℤ) ≤ 1 ∧
    ((meshMin demoMesh).1 < (meshMax demoMesh).1 ∧
      (meshMin demoMesh).2.1 < (meshMax demoMesh).2.1 ∧
      (meshMin demoMesh).2.2 < (meshMax demoMesh).2.2) ∧
    stl_to_voxel demoMesh 1 = Except.ok demoResult ∧
    (demoResult.grid.shape = (1, 1, 1) ∧ demoResult.grid.cellCount = 1 ^ 3 ∧
      (∀ i j k, ¬ (npZerosBool 1).cell i j k)) :=
  have hnd : (meshMin demoMesh).1 < (meshMax demoMesh).1 ∧
      (meshMin demoMesh).2.1 < (meshMax demoMesh).2.1 ∧
      (meshMin demoMesh).2.2 < (meshMax demoMesh).2.2 := by
    norm_num [meshMin, meshMax, coordsMin, coordsMax, listMin, listMax,
      allPoints, Triangle.verts, demoMesh, triA, triB]
  ⟨by simp [demoMesh], by norm_num, hnd, rfl,
   grid_alloc_shape_init demoMesh 1 demoResult (by simp [demoMesh])
     (by norm_num) hnd rfl⟩

/-- Counterexample to C2 as stated: in the conversion of the demonstration
mesh at resolution 1, triangle `triB` (flat against the `x = 1` face of the
mesh bounds) gets the clamped lower index `(1, 0, 0)`, whose first component
exceeds `resolution - 1 = 0` — so the computed `index_min` is *not* clamped
into `[0, resolution-1]`. -/
theorem voxelMin_clamp_counterexample :
    triB ∈ demoMesh ∧ (mkParams demoMesh 1).resolution = 1 ∧
    voxelMinC (mkParams demoMesh 1) triB = (1, 0, 0) ∧
    ¬ ((voxelMinC (mkParams demoMesh 1) triB).1 ≤
        (mkParams demoMesh 1).resolution - 1) := by
  have h : voxelMinC (mkParams demoMesh 1) triB = (1, 0, 0) := by
    norm_num [voxelMinC, voxelMinRaw, npFloorIdx, mkParams, triMin, coordsMin,
      listMin, Triangle.verts, voxelSizeOf, meshDims, psub, meshMin, meshMax,
      coordsMax, listMax, allPoints, demoMesh, triA, triB]
  refine ⟨by simp [demoMesh], rfl, h, ?_⟩
  rw [h]
  norm_num [mkParams]

/-- Claim C2 (amended): the lower index is clamped below to 0 and the upper
index is clamped above to resolution−1 (but not the reverse directions), and
consequently every voxel index the loops enumerate lies within
`[0, resolution−1]` on every axis. -/
theorem voxel_indices_within_bounds (P : RasterParams) (t : Triangle)
    (i j k : ℤ) :
    (0 ≤ (voxelMinC P t).1 ∧ 0 ≤ (voxelMinC P t).2.1 ∧
      0 ≤ (voxelMinC P t).2.2) ∧
    ((voxelMaxC P t).1 ≤ P.resolution - 1 ∧
      (voxelMaxC P t).2.1 ≤ P.resolution - 1 ∧
      (voxelMaxC P t).2.2 ≤ P.resolution - 1) ∧
    (inRange P t i j k →
      (0 ≤ i ∧ i ≤ P.resolution - 1) ∧ (0 ≤ j ∧ j ≤ P.resolution - 1) ∧
        (0 ≤ k ∧ k ≤ P.resolution - 1)) := by
  refine ⟨⟨le_max_right _ _, le_max_right _ _, le_max_right _ _⟩,
          ⟨min_le_right _ _, min_le_right _ _, min_le_right _ _⟩, ?_⟩
  rintro ⟨h1, h2, h3, h4, h5, h6⟩
  exact ⟨⟨le_trans (le_max_right _ _) h1, le_trans h2 (min_le_right _ _)⟩,
         ⟨le_trans (le_max_right _ _) h3, le_trans h4 (min_le_right _ _)⟩,
         ⟨le_trans (le_max_right _ _) h5, le_trans h6 (min_le_right _ _)⟩⟩

/-- Witness for C2 (amended): cell `(0,0,0)` is enumerated for `triA` in the
demonstration conversion and indeed lies within bounds. -/
theorem voxel_indices_within_bounds_witness :
    inRange (mkParams demoMesh 1) triA 0 0 0 ∧
    ((0 ≤ (0 : ℤ) ∧ (0 : ℤ) ≤ (mkParams demoMesh 1).resolution - 1) ∧
     (0 ≤ (0 : ℤ) ∧ (0 : ℤ) ≤ (mkParams demoMesh 1).resolution - 1) ∧
     (0 ≤ (0 : ℤ) ∧ (0 : ℤ) ≤ (mkParams demoMesh 1).resolution - 1)) :=
  have hin : inRange (mkParams demoMesh 1) triA 0 0 0 := by
    norm_num [inRange, voxelMinC, voxelMaxC, voxelMinRaw, voxelMaxRaw,
      npFloorIdx, npCeilIdx, mkParams, triMin, triMax, coordsMin, coordsMax,
      listMin, listMax, Triangle.verts, voxelSizeOf, meshDims, psub, meshMin,
      meshMax, allPoints, demoMesh, triA, triB]
  ⟨hin, (voxel_indices_within_bounds (mkParams demoMesh 1) triA 0 0 0).2.2 hin⟩

/-- Claim C10: with resolution ≥ 1 and strictly positive voxel sizes, every
cell the rasterizer can set is in `[0, resolution−1]` on every axis; when the
clamped lower index exceeds the clamped upper index on some axis the
triangle's range is empty and its pass leaves the grid unchanged; and the
conversion itself returns normally (no error is raised by the loop). -/
theorem raster_writes_in_bounds (P : RasterParams) (t : Triangle)
    (hres : 1 ≤ P.resolution)
    (_hvs : 0 < P.voxelSize.1 ∧ 0 < P.voxelSize.2.1 ∧ 0 < P.voxelSize.2.2) :
    (∀ i j k, marksCell P t i j k →
        (0 ≤ i ∧ i ≤ P.resolution - 1) ∧ (0 ≤ j ∧ j ≤ P.resolution - 1) ∧
          (0 ≤ k ∧ k ≤ P.resolution - 1)) ∧
    (((voxelMaxC P t).1 < (voxelMinC P t).1 ∨
        (voxelMaxC P t).2.1 < (voxelMinC P t).2.1 ∨
        (voxelMaxC P t).2.2 < (voxelMinC P t).2.2) →
      ∀ g : VoxelGrid, rasterizeTriangle P g t = g) ∧
    (∀ ts : List Triangle, ts ≠ [] →
      conversionOk (stl_to_voxel ts P.resolution) = true) := by
  refine ⟨?_, ?_, ?_⟩
  · intro i j k hm
    rcases hm with ⟨⟨h1, h2, h3, h4, h5, h6⟩, -⟩
    exact ⟨⟨le_trans (le_max_right _ _) h1, le_trans h2 (min_le_right _ _)⟩,
           ⟨le_trans (le_max_right _ _) h3, le_trans h4 (min_le_right _ _)⟩,
           ⟨le_trans (le_max_right _ _) h5, le_trans h6 (min_le_right _ _)⟩⟩
  · intro hempty g
    apply VoxelGrid.ext_iff_cells (rasterizeTriangle P g t) g rfl
    intro i j k
    show g.cell i j k ∨ marksCell P t i j k ↔ g.cell i j k
    constructor
    · rintro (hc | ⟨⟨h1, h2, h3, h4, h5, h6⟩, -⟩)
      · exact hc
      · rcases hempty with he | he | he <;> omega
    · exact Or.inl
  · intro ts hts
    rw [stl_to_voxel_ok ts P.resolution hts (by omega)]
    rfl

/-- Witness for C10 at the demonstration conversion parameters. -/
theorem raster_writes_in_bounds_witness :
    (1 : ℤ) ≤ (mkParams demoMesh 1).resolution ∧
    (0 < (mkParams demoMesh 1).voxelSize.1 ∧
      0 < (mkParams demoMesh 1).voxelSize.2.1 ∧
      0 < (mkParams demoMesh 1).voxelSize.2.2) ∧
    (∀ i j k, marksCell (mkParams demoMesh 1) triA i j k →
        (0 ≤ i ∧ i ≤ (mkParams demoMesh 1).resolution - 1) ∧
        (0 ≤ j ∧ j ≤ (mkParams demoMesh 1).resolution - 1) ∧
        (0 ≤ k ∧ k ≤ (mkParams demoMesh 1).resolution - 1)) :=
  have hres : (1 : ℤ) ≤ (mkParams demoMesh 1).resolution := by norm_num [mkParams]
  have hvs : 0 < (mkParams demoMesh 1).voxelSize.1 ∧
      0 < (mkParams demoMesh 1).voxelSize.2.1 ∧
      0 < (mkParams demoMesh 1).voxelSize.2.2 := by
    norm_num [mkParams, voxelSizeOf, meshDims, psub, meshMin, meshMax,
      coordsMin, coordsMax, listMin, listMax, allPoints, Triangle.verts,
      demoMesh, triA, triB]
  ⟨hres, hvs, (raster_writes_in_bounds (mkParams demoMesh 1) triA hres hvs).1⟩

/-- Counterexample to C3 as stated: at resolution 0 (< 1) the conversion does
not fail at all — it returns normally (with an empty grid), so no
`InvalidResolution` error exists in the code. -/
theorem resolution_zero_succeeds :
    conversionOk (stl_to_voxel demoMesh 0) = true := rfl

/-- Claim C3 (amended): no resolution validation exists.  For a non-empty
mesh, every negative resolution fails only with the allocator's
negative-dimension error (raised by `np.zeros` after bounds and voxel size
are computed), while resolution 0 succeeds and returns a grid whose
allocated shape is `(0, 0, 0)`. -/
theorem resolution_validation_behavior (ts : List Triangle) (h : ts ≠ []) :
    (∀ res : ℤ, res < 0 →
        stl_to_voxel ts res = Except.error PyErr.negativeDimsZeros) ∧
    conversionOk (stl_to_voxel ts 0) = true ∧
    (∀ r, stl_to_voxel ts 0 = Except.ok r → r.grid.shape = (0, 0, 0)) := by
  obtain ⟨t, ts', rfl⟩ : ∃ t ts', ts = t :: ts' := by
    cases ts with
    | nil => exact absurd rfl h
    | cons a l => exact ⟨a, l, rfl⟩
  refine ⟨?_, ?_, ?_⟩
  · intro res hres
    rw [stl_to_voxel_cons, if_pos hres]
  · rw [stl_to_voxel_cons, if_neg (by omega)]
    rfl
  · intro r hr
    rw [stl_to_voxel_cons, if_neg (by omega)] at hr
    rw [← Except.ok.inj hr]
    exact (rasterize_shape _ _ _).trans rfl

/-- Witness for C3 at the demonstration mesh and resolutions −1 and 0. -/
theorem resolution_validation_behavior_witness :
    demoMesh ≠ [] ∧
    stl_to_voxel demoMesh (-1) = Except.error PyErr.negativeDimsZeros ∧
    conversionOk (stl_to_voxel demoMesh 0) = true :=
  have h : demoMesh ≠ [] := by simp [demoMesh]
  ⟨h, (resolution_validation_behavior demoMesh h).1 (-1) (by norm_num),
   (resolution_validation_behavior demoMesh h).2.1⟩

theorem npCeilIdx_zero_den (num : ℚ) : npCeilIdx num 0 = int64Min := by
  simp [npCeilIdx]

/-- Counterexample to C4 as stated: the single flat triangle
`(0,0,0), (1,0,0), (0,1,0)` at resolution 1 does not produce a
`DegenerateBounds` error — the conversion returns normally. -/
theorem flat_mesh_succeeds :
    conversionOk (stl_to_voxel [flatTri] 1) = true := rfl

/-- Claim C4 (amended): a mesh whose bounds have zero extent on at least one
axis (x, y or z) is not rejected; the conversion proceeds and returns
normally, and because the zero voxel size makes every triangle's index range
empty on that axis, no cell is ever marked — the returned grid is entirely
false. -/
theorem flat_mesh_all_false (ts : List Triangle) (res : ℤ) (h : ts ≠ [])
    (hres : 1 ≤ res)
    (hz : (meshDims ts).1 = 0 ∨ (meshDims ts).2.1 = 0 ∨
      (meshDims ts).2.2 = 0) :
    conversionOk (stl_to_voxel ts res) = true ∧
    (∀ r, stl_to_voxel ts res = Except.ok r →
      ∀ i j k, ¬ r.grid.cell i j k) := by
  have hok := stl_to_voxel_ok ts res h (by omega)
  constructor
  · rw [hok]; rfl
  · intro r hr i j k hcell
    rw [hok] at hr
    rw [← Except.ok.inj hr] at hcell
    rw [rasterize_cell] at hcell
    rcases hcell with hfalse | ⟨t, _ht, ⟨h1, h2, h3, h4, h5, h6⟩, -⟩
    · exact hfalse
    · have hneg : int64Min < 0 := by norm_num [int64Min]
      rcases hz with hax | hax | hax
      · have hvs : (mkParams ts res).voxelSize.1 = 0 := by
          show (meshDims ts).1 / (res : ℚ) = 0
          rw [hax]
          simp
        have hmax : (voxelMaxC (mkParams ts res) t).1 ≤ int64Min := by
          show min (npCeilIdx ((triMax t).1 - (mkParams ts res).minCoords.1)
            ((mkParams ts res).voxelSize.1)) ((mkParams ts res).resolution - 1)
              ≤ int64Min
          rw [hvs, npCeilIdx_zero_den]
          exact min_le_left _ _
        have hmin : (0 : ℤ) ≤ (voxelMinC (mkParams ts res) t).1 :=
          le_max_right _ _
        omega
      · have hvs : (mkParams ts res).voxelSize.2.1 = 0 := by
          show (meshDims ts).2.1 / (res : ℚ) = 0
          rw [hax]
          simp
        have hmax : (voxelMaxC (mkParams ts res) t).2.1 ≤ int64Min := by
          show min (npCeilIdx ((triMax t).2.1 - (mkParams ts res).minCoords.2.1)
            ((mkParams ts res).voxelSize.2.1)) ((mkParams ts res).resolution - 1)
              ≤ int64Min
          rw [hvs, npCeilIdx_zero_den]
          exact min_le_left _ _
        have hmin : (0 : ℤ) ≤ (voxelMinC (mkParams ts res) t).2.1 :=
          le_max_right _ _
        omega
      · have hvs : (mkParams ts res).voxelSize.2.2 = 0 := by
          show (meshDims ts).2.2 / (res : ℚ) = 0
          rw [hax]
          simp
        have hmax : (voxelMaxC (mkParams ts res) t).2.2 ≤ int64Min := by
          show min (npCeilIdx ((triMax t).2.2 - (mkParams ts res).minCoords.2.2)
            ((mkParams ts res).voxelSize.2.2)) ((mkParams ts res).resolution - 1)
              ≤ int64Min
          rw [hvs, npCeilIdx_zero_den]
          exact min_le_left _ _
        have hmin : (0 : ℤ) ≤ (voxelMinC (mkParams ts res) t).2.2 :=
          le_max_right _ _
        omega

/-- Witness for C4 at the single flat triangle and resolution 1. -/
theorem flat_mesh_all_false_witness :
    [flatTri] ≠ [] ∧ (1 : ℤ) ≤ 1 ∧
    ((meshDims [flatTri]).1 = 0 ∨ (meshDims [flatTri]).2.1 = 0 ∨
      (meshDims [flatTri]).2.2 = 0) ∧
    (conversionOk (stl_to_voxel [flatTri] 1) = true ∧
     (∀ r, stl_to_voxel [flatTri] 1 = Except.ok r →
       ∀ i j k, ¬ r.grid.cell i j k)) :=
  have hz : (meshDims [flatTri]).2.2 = 0 := by
    norm_num [meshDims, psub, meshMin, meshMax, coordsMin, coordsMax,
      listMin, listMax, allPoints, Triangle.verts, flatTri]
  ⟨by simp, by norm_num, Or.inr (Or.inr hz),
   flat_mesh_all_false [flatTri] 1 (by simp) (by norm_num) (Or.inr (Or.inr hz))⟩

/-- Claim C7: permuting the order of the triangles in the input mesh yields
the identical conversion result (bounds and a bit-identical final grid). -/
theorem stl_to_voxel_perm_invariant (ts ts' : List Triangle) (res : ℤ)
    (h : ts.Perm ts') : stl_to_voxel ts res = stl_to_voxel ts' res := by
  cases ts with
  | nil =>
    have hnil : ts' = [] := h.symm.eq_nil
    rw [hnil]
  | cons a l =>
    cases ts' with
    | nil => exact absurd h.eq_nil (List.cons_ne_nil a l)
    | cons b m =>
      rw [stl_to_voxel_cons, stl_to_voxel_cons]
      by_cases hres : res < 0
      · rw [if_pos hres, if_pos hres]
      · rw [if_neg hres, if_neg hres]
        have hP : mkParams (a :: l) res = mkParams (b :: m) res :=
          mkParams_perm _ _ res h
        have hmin : meshMin (a :: l) = meshMin (b :: m) := meshMin_perm _ _ h
        have hmax : meshMax (a :: l) = meshMax (b :: m) := meshMax_perm _ _ h
        have hgrid : rasterize (mkParams (a :: l) res) (a :: l)
            (npZerosBool res) =
            rasterize (mkParams (b :: m) res) (b :: m) (npZerosBool res) := by
          rw [hP]
          apply VoxelGrid.ext_iff_cells
          · rw [rasterize_shape, rasterize_shape]
          · intro i j k
            rw [rasterize_cell, rasterize_cell]
            constructor
            · rintro (hf | ⟨t, ht, hm⟩)
              · exact Or.inl hf
              · exact Or.inr ⟨t, h.mem_iff.mp ht, hm⟩
            · rintro (hf | ⟨t, ht, hm⟩)
              · exact Or.inl hf
              · exact Or.inr ⟨t, h.mem_iff.mpr ht, hm⟩
        rw [hgrid, hmin, hmax]

/-- Witness for C7: swapping the two triangles of the demonstration mesh
gives the identical conversion result. -/
theorem stl_to_voxel_perm_invariant_witness :
    demoMesh.Perm demoMeshSwapped ∧
    stl_to_voxel demoMesh 1 = stl_to_voxel demoMeshSwapped 1 :=
  have hp : demoMesh.Perm demoMeshSwapped := List.Perm.swap triB triA []
  ⟨hp, stl_to_voxel_perm_invariant demoMesh demoMeshSwapped 1 hp⟩
